import Mathlib

/-!
Verification development for the knowledge-assistant backend.

The definitions below are a shallow embedding of the access-control and
retrieval-filter code of `backend/app/core/rbac.py` and
`backend/app/services/vector_service.py`, and of the resilience layer of
`backend/app/services/ai_service.py`.  Database rows (users, projects,
memberships, documents) are passed explicitly as values; Python string
roles/scopes stay strings; Qdrant filters are modelled as a small condition
language together with its match semantics (`must` conjunction plus
`min_should = 1` disjunction).
-/

namespace KnowledgeAssistant

/-- The four roles of `UserRole` in rbac.py. -/
inductive UserRole
  | super_admin
  | admin
  | user
  | guest
deriving DecidableEq, Repr

/-- A row of the projects table: the fields read by rbac.py. -/
structure ProjectRec where
  id : Int
  created_by_id : Int
  is_active : Bool
  is_private : Bool
deriving DecidableEq, Repr

/-- A user row; `role` is the attached role's name (`None` when no role is
attached) and `projects` the projects the user is assigned to. -/
structure UserRec where
  id : Int
  role : Option String
  projects : List ProjectRec
deriving DecidableEq, Repr

/-- A row of the `user_projects` association table. -/
structure MembershipRec where
  user_id : Int
  project_id : Int
  role_in_project : Option String
deriving DecidableEq, Repr

/-- The database facts consulted by the access-control functions. -/
structure Env where
  projects : List ProjectRec
  memberships : List MembershipRec
deriving Repr

/-- `UserRole(role_name)` enum lookup by value. -/
def roleOfString (s : String) : Option UserRole :=
  if s = "super_admin" then some .super_admin
  else if s = "admin" then some .admin
  else if s = "user" then some .user
  else if s = "guest" then some .guest
  else none

/-- Python's `str.lower()` on a role name, written through the character
list so that it evaluates in the kernel. -/
def lowerString (s : String) : String :=
  ⟨s.data.map Char.toLower⟩

/-- `get_user_role` (rbac.py:115): no role ⇒ guest; unknown lower-cased
role name ⇒ user. -/
def get_user_role (u : UserRec) : UserRole :=
  match u.role with
  | none => .guest
  | some name => (roleOfString (lowerString name)).getD .user

/-- `ROLE_PERMISSIONS` table (rbac.py:44). -/
def ROLE_PERMISSIONS : UserRole → List String
  | .super_admin => ["all"]
  | .admin =>
      ["manage_users", "manage_projects", "manage_documents",
       "upload_documents", "delete_project_documents", "chat", "view_all",
       "view_analytics", "view_audit", "admin_access"]
  | .user =>
      ["upload_documents", "delete_own_documents", "chat", "view_assigned",
       "manage_personal"]
  | .guest => ["chat_limited", "view_assigned"]

/-- `is_super_admin` (rbac.py:144). -/
def is_super_admin (u : UserRec) : Bool :=
  get_user_role u == .super_admin

/-- `is_admin` (rbac.py:149): admin or super-admin. -/
def is_admin (u : UserRec) : Bool :=
  get_user_role u == .super_admin || get_user_role u == .admin

/-- `db.query(Project).filter(Project.id == project_id).first()`. -/
def findProject (env : Env) (pid : Int) : Option ProjectRec :=
  env.projects.find? (fun p => p.id == pid)

/-- `user in project.users`, read off the association table. -/
def isProjectMember (env : Env) (uid pid : Int) : Bool :=
  env.memberships.any (fun m => m.user_id == uid && m.project_id == pid)

/-- The `role_in_project` column for a membership row. -/
def memberRoleInProject (env : Env) (uid pid : Int) : Option String :=
  match env.memberships.find? (fun m => m.user_id == uid && m.project_id == pid) with
  | some m => m.role_in_project
  | none => none

/-- `check_project_access` (rbac.py:190). -/
def check_project_access (env : Env) (pid : Int) (u : UserRec)
    (require_admin : Bool) : Bool :=
  if is_super_admin u then true
  else if is_admin u && !require_admin then true
  else
    match findProject env pid with
    | none => false
    | some project =>
      if project.created_by_id == u.id then true
      else if isProjectMember env u.id pid then
        if require_admin then
          match memberRoleInProject env u.id pid with
          | some r => r == "admin"
          | none => false
        else true
      else if !project.is_private then !require_admin
      else false

/-- A document row: the fields read by `check_document_access`.  The
document is passed by value, so the not-found branch of the Python code
(which returns `False`) is outside the model. -/
structure DocumentRec where
  id : Int
  uploaded_by_id : Int
  project_id : Int
  access_scope : String
deriving DecidableEq, Repr

/-- `check_document_access` (rbac.py:291), with `action` one of
`"view"`, `"edit"`, `"delete"`. -/
def check_document_access (env : Env) (doc : DocumentRec) (u : UserRec)
    (action : String) : Bool :=
  if is_super_admin u then true
  else if doc.uploaded_by_id == u.id then true
  else if is_admin u && doc.access_scope != "personal" then true
  else if doc.access_scope == "organization" then action == "view"
  else if doc.access_scope == "project" then
    if !check_project_access env doc.project_id u false then false
    else if action == "edit" || action == "delete" then
      check_project_access env doc.project_id u true
    else true
  else if doc.access_scope == "personal" then doc.uploaded_by_id == u.id
  else false

/-- `get_accessible_project_ids` (rbac.py:249).  `List.dedup` models the
`list(set(...))` applied by the Python code; only membership matters to
the claims. -/
def get_accessible_project_ids (u : UserRec) (env : Env) : List Int :=
  if is_super_admin u || is_admin u then
    (env.projects.filter (fun p => p.is_active)).map (fun p => p.id)
  else
    (((u.projects.filter (fun p => p.is_active)).map (fun p => p.id))
      ++ ((env.projects.filter (fun p => p.created_by_id == u.id && p.is_active)).map
            (fun p => p.id))
      ++ ((env.projects.filter (fun p => !p.is_private && p.is_active)).map
            (fun p => p.id))).dedup

/-! ## Retrieval filter compiler (`VectorService.search_similar`) -/

/-- The chunk payload fields consulted by the compiled Qdrant filter. -/
structure ChunkRec where
  document_id : Int
  project_id : Option Int
  user_id : Option Int
  access_scope : String
deriving DecidableEq, Repr

/-- The `FieldCondition`s built by `search_similar`. -/
inductive Cond
  | docIdAny (ids : List Int)
  | projIdEq (p : Int)
  | projIdAny (ps : List Int)
  | userIdEq (uid : Int)
  | scopeEq (s : String)
deriving DecidableEq, Repr

/-- Qdrant match semantics of a single field condition against a chunk
payload (`MatchValue` equality, `MatchAny` membership; an absent payload
value matches nothing). -/
def evalCond : Cond → ChunkRec → Bool
  | .docIdAny ids, ch => ids.contains ch.document_id
  | .projIdEq p, ch => ch.project_id == some p
  | .projIdAny ps, ch =>
      match ch.project_id with
      | some p => ps.contains p
      | none => false
  | .userIdEq uid, ch => ch.user_id == some uid
  | .scopeEq s, ch => ch.access_scope == s

/-- A Qdrant `Filter(must=..., should=..., min_should=1)`; the code wraps
each `should` alternative in a singleton `Filter(must=[...])`, which is
equivalent to the bare condition. -/
structure QdrantFilter where
  must : List Cond
  should : List Cond
deriving DecidableEq, Repr

/-- A chunk matches when every `must` condition holds and, if any `should`
conditions are present, at least one of them holds (`min_should = 1`). -/
def evalFilter (f : QdrantFilter) (ch : ChunkRec) : Bool :=
  f.must.all (fun c => evalCond c ch) &&
    (f.should.isEmpty || f.should.any (fun c => evalCond c ch))

/-- The four values `search_similar` reads from `rbac_context` (a missing
context reads as `⟨false, false, [], none⟩`). -/
structure RbacContext where
  is_super_admin : Bool
  is_admin : Bool
  accessible_project_ids : List Int
  super_admin_user_id : Option Int
deriving DecidableEq, Repr

/-- The optional `user_id = uid` visibility alternative appended to the
`should` list when the id is present. -/
def optUserCond : Option Int → List Cond
  | some uid => [Cond.userIdEq uid]
  | none => []

/-- Outcome of compiling the retrieval filter: the access-denied early
return, no filter at all (`search_filter = None`), or a filter. -/
inductive FilterOutcome
  | denied
  | noFilter
  | filt (f : QdrantFilter)
deriving DecidableEq, Repr

/-- The filter-construction logic of `VectorService.search_similar`
(vector_service.py:277-394).  An empty `document_ids` list stands for the
absent/None explicit allow-list. -/
def buildSearchFilter (document_ids : List Int) (rbac : RbacContext)
    (project_id : Option Int) (user_id : Option Int) : FilterOutcome :=
  if document_ids ≠ [] then
    .filt { must := [Cond.docIdAny document_ids], should := [] }
  else if rbac.is_super_admin then
    match project_id with
    | some p => .filt { must := [Cond.projIdEq p], should := [] }
    | none => .noFilter
  else if rbac.is_admin then
    .filt
      { must := match project_id with | some p => [Cond.projIdEq p] | none => []
        should := [Cond.scopeEq "organization", Cond.scopeEq "project"]
          ++ optUserCond user_id ++ optUserCond rbac.super_admin_user_id }
  else
    match project_id with
    | some p =>
      if rbac.accessible_project_ids.contains p then
        .filt
          { must := [Cond.projIdEq p]
            should := [Cond.scopeEq "organization", Cond.scopeEq "project"]
              ++ optUserCond user_id ++ optUserCond rbac.super_admin_user_id }
      else .denied
    | none =>
      .filt
        { must :=
            if rbac.accessible_project_ids ≠ [] then
              [Cond.projIdAny rbac.accessible_project_ids]
            else []
          should := [Cond.scopeEq "organization", Cond.scopeEq "project"]
            ++ optUserCond user_id ++ optUserCond rbac.super_admin_user_id }

/-- The result dictionary of `search_similar`: the access-denied early
return carries `error = "Access denied to this project"` and no
`rbac_applied` key (modelled `false`); a successful search carries no
`error` key (modelled `none`). -/
structure SearchResponse where
  results : List ChunkRec
  total_results : Nat
  error : Option String
  rbac_applied : Bool
deriving DecidableEq, Repr

/-- `search_similar` run against a store `db`: compile the filter and keep
the chunks it admits (similarity scoring and top-k truncation act after
this admission step and are orthogonal to the filtering claims). -/
def search_similar_run (db : List ChunkRec) (document_ids : List Int)
    (rbac : RbacContext) (project_id user_id : Option Int) : SearchResponse :=
  match buildSearchFilter document_ids rbac project_id user_id with
  | .denied =>
      { results := [], total_results := 0,
        error := some "Access denied to this project", rbac_applied := false }
  | .noFilter =>
      { results := db, total_results := db.length, error := none,
        rbac_applied := true }
  | .filt f =>
      let rs := db.filter (fun ch => evalFilter f ch)
      { results := rs, total_results := rs.length, error := none,
        rbac_applied := true }

/-! ## Resilience layer (`ai_service.py`) -/

/-- `CircuitState` (ai_service.py:40). -/
inductive CircuitState
  | closed
  | open
  | halfOpen
deriving DecidableEq, Repr

/-- `CircuitBreaker` state (ai_service.py:47); time is modelled in integer
seconds. -/
structure CB where
  failure_count : Nat
  last_failure_time : Option Int
  state : CircuitState
deriving DecidableEq, Repr

/-- The freshly constructed breaker. -/
def CB.init : CB := { failure_count := 0, last_failure_time := none, state := .closed }

/-- `CircuitBreaker.record_failure` at time `now` (threshold is
`settings.CIRCUIT_BREAKER_THRESHOLD`). -/
def record_failure (threshold : Nat) (cb : CB) (now : Int) : CB :=
  { failure_count := cb.failure_count + 1
    last_failure_time := some now
    state := if threshold ≤ cb.failure_count + 1 then .open else cb.state }

/-- `CircuitBreaker.record_success`. -/
def record_success (cb : CB) : CB :=
  { cb with failure_count := 0, state := .closed }

/-- `CircuitBreaker.can_execute` at time `now` (timeout is
`settings.CIRCUIT_BREAKER_TIMEOUT` seconds); the open→half-open transition
mutates the state, so the updated breaker is returned alongside the
decision. -/
def can_execute (timeout : Int) (cb : CB) (now : Int) : Bool × CB :=
  match cb.state with
  | .closed => (true, cb)
  | .open =>
    match cb.last_failure_time with
    | some tf =>
        if timeout < now - tf then (true, { cb with state := .halfOpen })
        else (false, cb)
    | none => (false, cb)
  | .halfOpen => (true, cb)

/-- How one `_call_hf_api` invocation ends for the circuit breaker:
rejected without contacting the provider, or contacted with
success/failure recorded. -/
inductive CallOutcome
  | rejected
  | succeeded
  | failedCall
deriving DecidableEq, Repr

/-- One provider call through the circuit breaker (`_call_hf_api`,
ai_service.py:193-247): the breaker gate runs first; if it rejects, the
provider is never contacted; otherwise `providerOk` decides whether
`record_success` or `record_failure` runs. -/
def callStep (threshold : Nat) (timeout : Int) (cb : CB) (now : Int)
    (providerOk : Bool) : CB × CallOutcome :=
  let gate := can_execute timeout cb now
  if gate.1 then
    if providerOk then (record_success gate.2, .succeeded)
    else (record_failure threshold gate.2 now, .failedCall)
  else (gate.2, .rejected)

/-- Fold a sequence of provider-failing calls (one per timestamp) through
the breaker. -/
def applyFailCalls (threshold : Nat) (timeout : Int) (cb : CB)
    (ts : List Int) : CB :=
  ts.foldl (fun c t => (callStep threshold timeout c t false).1) cb

/-- Result of `_check_rate_limit` (ai_service.py:164): the pruned/updated
timestamp window, plus the wait time carried by the `RateLimitError` when
the call is rejected.  Time is in seconds as a rational. -/
structure RateLimitResult where
  timestamps : List ℚ
  rejected : Option ℚ
deriving DecidableEq, Repr

/-- `_check_rate_limit`: drop timestamps older than one minute, reject
with the wait until the oldest kept timestamp leaves the window when the
window already holds `maxPerMinute` entries, and otherwise record `now`. -/
def check_rate_limit (maxPerMinute : Nat) (timestamps : List ℚ) (now : ℚ) :
    RateLimitResult :=
  let minuteAgo := now - 60
  let kept := timestamps.filter (fun ts => minuteAgo < ts)
  if maxPerMinute ≤ kept.length then
    { timestamps := kept, rejected := some (kept.headD 0 - minuteAgo) }
  else
    { timestamps := kept ++ [now], rejected := none }

/-! ## Answer post-processing (`ai_service.py`) -/

/-- The per-chunk dictionary returned by retrieval, as read by
`_extract_citations`, `_calculate_confidence` and
`_generate_context_fallback`.  `Option` fields model absent metadata keys;
a missing similarity score reads as `0`. -/
structure RetrievedDoc where
  content : String
  document_id : Option Int
  filename : Option String
  page_number : Option Int
  section_title : Option String
  chunk_index : Option Int
  similarity_score : ℚ
deriving DecidableEq, Repr

/-- A citation entry built by `_extract_citations` (ai_service.py:415). -/
structure Citation where
  document_id : Option Int
  filename : String
  page_number : Option Int
  section_title : Option String
  chunk_index : Option Int
  similarity_score : ℚ
deriving DecidableEq, Repr

/-- The citation dictionary for one context document. -/
def citationOf (d : RetrievedDoc) : Citation :=
  { document_id := d.document_id
    filename := d.filename.getD "Unknown"
    page_number := d.page_number
    section_title := d.section_title
    chunk_index := d.chunk_index
    similarity_score := d.similarity_score }

/-- `_extract_citations` (ai_service.py:401): keep exactly the context
documents whose similarity score is at least `minSim`
(`settings.MIN_SIMILARITY_SCORE`); the generated response text is not
consulted. -/
def extract_citations (minSim : ℚ) (docs : List RetrievedDoc) : List Citation :=
  match docs with
  | [] => []
  | d :: rest =>
      if minSim ≤ d.similarity_score then
        citationOf d :: extract_citations minSim rest
      else extract_citations minSim rest

/-- The similarity scores of a context list, as read by
`_calculate_confidence`. -/
def scoresOf (docs : List RetrievedDoc) : List ℚ :=
  docs.map (fun d => d.similarity_score)

/-- The count of scores strictly above the high-relevance threshold 0.7. -/
def highRelevanceCount (docs : List RetrievedDoc) : Nat :=
  ((scoresOf docs).filter (fun s => (7 : ℚ)/10 < s)).length

/-- The mean similarity of a context list. -/
def avgScore (docs : List RetrievedDoc) : ℚ :=
  (scoresOf docs).sum / ((scoresOf docs).length : ℚ)

/-- `_calculate_confidence` (ai_service.py:426). -/
def calculate_confidence (docs : List RetrievedDoc) : ℚ :=
  if docs.isEmpty then 1/2
  else
    let scores := scoresOf docs
    if scores.isEmpty then 1/2
    else
      let avg := scores.sum / (scores.length : ℚ)
      let bonus :=
        min (((scores.filter (fun s => (7 : ℚ)/10 < s)).length : ℚ) * (1/20)) (3/20)
      min (avg + bonus) 1

/-! ### String containment helpers for the fallback-answer claims -/

/-- `startsWithL s p`: the character list `p` is an initial segment of `s`. -/
def startsWithL : List Char → List Char → Bool
  | _, [] => true
  | [], _ :: _ => false
  | a :: as, b :: bs => a == b && startsWithL as bs

/-- `containsL s p`: the character list `p` occurs contiguously in `s`. -/
def containsL : List Char → List Char → Bool
  | s, p =>
    startsWithL s p ||
      match s with
      | [] => false
      | _ :: t => containsL t p

/-- Substring occurrence on strings. -/
def strContains (s pat : String) : Bool :=
  containsL s.data pat.data

/-- `sep.join parts` as in Python. -/
def joinSep (sep : String) : List String → String
  | [] => ""
  | [x] => x
  | x :: y :: rest => x ++ sep ++ joinSep sep (y :: rest)

/-! ### Degraded-mode fallback (`_generate_context_fallback`) -/

/-- The `[filename, Page n]` source tag of a fallback excerpt; a page of
`0` is falsy in Python and is omitted like a missing page. -/
def fallbackSource (d : RetrievedDoc) : String :=
  "[" ++ d.filename.getD "Document"
    ++ (match d.page_number with
        | some p => if p ≠ 0 then ", Page " ++ toString p else ""
        | none => "")
    ++ "]"

/-- Python's `str.strip()`: drop whitespace from both ends, written on
the character list so that it evaluates in the kernel. -/
def strStrip (s : String) : String :=
  ⟨((s.data.dropWhile Char.isWhitespace).reverse.dropWhile Char.isWhitespace).reverse⟩

/-- Python's `s[:n]` character-level truncation. -/
def strTakeChars (s : String) (n : Nat) : String :=
  ⟨s.data.take n⟩

/-- One fallback excerpt: source tag, colon, and the (stripped, 500-char
truncated) chunk content; `none` when the stripped content is empty. -/
def fallbackEntry (d : RetrievedDoc) : Option String :=
  let content := strStrip d.content
  if content = "" then none
  else
    let content :=
      if 500 < content.length then strTakeChars content 500 ++ "..." else content
    some (fallbackSource d ++ ":\n" ++ content)

/-- The content part of a chunk's fallback excerpt: its stripped content,
truncated to 500 characters (with a trailing ellipsis) when longer. -/
def fallbackContentOf (d : RetrievedDoc) : String :=
  if 500 < (strStrip d.content).length then
    strTakeChars (strStrip d.content) 500 ++ "..."
  else strStrip d.content

/-- The service-degraded banner of the fallback answer. -/
def degradedBanner : String :=
  "**Note: AI service temporarily unavailable. Showing relevant document excerpts:**\n\n"

/-- The closing line of the fallback answer. -/
def degradedTail : String :=
  "\n\n*For AI-generated answers, please ensure your internet connection is active.*"

/-- `_generate_context_fallback` (ai_service.py:443). -/
def generate_context_fallback (docs : List RetrievedDoc) : String :=
  if docs.isEmpty then
    "No relevant documents found to answer your question. Please try a different query."
  else
    let relevant := (docs.take 3).filterMap fallbackEntry
    if relevant.isEmpty then
      "I found some documents but couldn't extract readable content. Please try rephrasing your question."
    else
      degradedBanner ++ joinSep "\n\n---\n\n" relevant ++ degradedTail

/-- The answer dictionary of `generate_answer`: the fields the degraded
and apologetic branches populate.  `error = none` models the absence of
the `error` key (the flag of a normal answer). -/
structure AnswerResult where
  answer : String
  citations : List Citation
  confidence_score : ℚ
  model_used : String
  error : Option String
deriving DecidableEq, Repr

/-- The `except HFInferenceError` branch of `generate_answer`
(ai_service.py:316-336): with usable context, return the context fallback
flagged by the fallback model tag and an `error` entry with confidence
0.5; with no usable context, return the fixed apologetic message with no
citations. -/
def generate_answer_on_hf_error (minSim : ℚ) (model_name errMsg : String)
    (docs : List RetrievedDoc) : AnswerResult :=
  if docs.any (fun d => d.content ≠ "") then
    { answer := generate_context_fallback docs
      citations := extract_citations minSim docs
      confidence_score := 1/2
      model_used := "fallback (HF API unavailable)"
      error := some "AI service temporarily unavailable - showing relevant document excerpts" }
  else
    { answer := "The AI service is temporarily unavailable due to network issues. Please try again when your internet connection is restored."
      citations := []
      confidence_score := 0
      model_used := model_name
      error := some errMsg }

/-! ## Theorems -/

/-- C10: role resolution is total with a non-guest default.  A user with
no attached role resolves to `guest`; a user whose lower-cased role name
is not one of the four defined roles resolves to `user`, whose permission
set includes `upload_documents` and `chat`, neither of which the guest
permission set contains. -/
theorem role_resolution_default (u : UserRec) (s : String) :
    (u.role = none → get_user_role u = .guest) ∧
    (u.role = some s → roleOfString (lowerString s) = none → get_user_role u = .user) ∧
    "upload_documents" ∈ ROLE_PERMISSIONS .user ∧
    "chat" ∈ ROLE_PERMISSIONS .user ∧
    "upload_documents" ∉ ROLE_PERMISSIONS .guest ∧
    "chat" ∉ ROLE_PERMISSIONS .guest := by
  refine ⟨?_, ?_, by decide, by decide, by decide, by decide⟩
  · intro h
    simp [get_user_role, h]
  · intro h h2
    simp [get_user_role, h, h2]

/-- Witness for C10: a user with no role is a guest; a user with the
unrecognized role name `"Manager"` gets the standard-user role. -/
theorem role_resolution_default_witness :
    get_user_role ⟨3, none, []⟩ = .guest ∧
    get_user_role ⟨4, some "Manager", []⟩ = .user :=
  ⟨(role_resolution_default ⟨3, none, []⟩ "Manager").1 rfl,
   (role_resolution_default ⟨4, some "Manager", []⟩ "Manager").2.1 rfl (by decide)⟩

/-- C9 counterexample: a standard user created project 7, but the project
is inactive, so `get_accessible_project_ids` does not contain it — the
result is not a superset of the projects the principal created. -/
theorem accessible_projects_not_superset_of_created :
    (∃ p ∈ (Env.mk [⟨7, 1, false, true⟩] []).projects,
        p.created_by_id = (UserRec.mk 1 (some "user") []).id ∧ p.id = 7) ∧
    (7 : Int) ∉ get_accessible_project_ids ⟨1, some "user", []⟩ ⟨[⟨7, 1, false, true⟩], []⟩ := by
  constructor
  · exact ⟨⟨7, 1, false, true⟩, by decide, by decide, by decide⟩
  · decide

/-- C9 amended: for every principal of every role,
`get_accessible_project_ids` contains every *active* project the
principal created and every non-private active project. -/
theorem accessible_projects_superset_active (u : UserRec) (env : Env)
    (p : ProjectRec) (hp : p ∈ env.projects) (ha : p.is_active = true)
    (h : p.created_by_id = u.id ∨ p.is_private = false) :
    p.id ∈ get_accessible_project_ids u env := by
  unfold get_accessible_project_ids
  by_cases hadm : (is_super_admin u || is_admin u) = true
  · rw [if_pos hadm]
    exact List.mem_map_of_mem _ (List.mem_filter.mpr ⟨hp, ha⟩)
  · rw [if_neg hadm, List.mem_dedup]
    rcases h with hcre | hpub
    · refine List.mem_append.mpr (Or.inl (List.mem_append.mpr (Or.inr ?_)))
      exact List.mem_map_of_mem _ (List.mem_filter.mpr ⟨hp, by simp [hcre, ha]⟩)
    · refine List.mem_append.mpr (Or.inr ?_)
      exact List.mem_map_of_mem _ (List.mem_filter.mpr ⟨hp, by simp [hpub, ha]⟩)

/-- Witness for C9 amended: an admin sees an active project created by
someone else, and a guest sees a non-private active project. -/
theorem accessible_projects_superset_active_witness :
    (5 : Int) ∈ get_accessible_project_ids ⟨1, some "admin", []⟩ ⟨[⟨5, 1, true, true⟩], []⟩ ∧
    (6 : Int) ∈ get_accessible_project_ids ⟨1, some "guest", []⟩ ⟨[⟨6, 2, true, false⟩], []⟩ :=
  ⟨accessible_projects_superset_active ⟨1, some "admin", []⟩ ⟨[⟨5, 1, true, true⟩], []⟩
      ⟨5, 1, true, true⟩ (by simp) rfl (Or.inl rfl),
   accessible_projects_superset_active ⟨1, some "guest", []⟩ ⟨[⟨6, 2, true, false⟩], []⟩
      ⟨6, 2, true, false⟩ (by simp) rfl (Or.inr rfl)⟩

/-- On a `personal`-scope document, `check_document_access` reduces to
"super-admin or uploader", whatever the action. -/
lemma check_document_access_personal (env : Env) (doc : DocumentRec)
    (u : UserRec) (action : String) (hscope : doc.access_scope = "personal") :
    check_document_access env doc u action =
      (is_super_admin u || doc.uploaded_by_id == u.id) := by
  unfold check_document_access
  rw [hscope]
  by_cases hsa : is_super_admin u = true
  · simp [hsa]
  · by_cases hown : doc.uploaded_by_id = u.id
    · simp [hsa, hown]
    · simp [hsa, hown]

/-- C1: a `personal`-scope document is accessible exactly to its uploader
and to a super-admin; an admin-role non-uploader is denied every action;
and the admin-tier retrieval filter admits a `personal`-scope chunk only
when it is uploaded by the caller or by the trusted shared super-admin
identity. -/
theorem personal_scope_access :
    (∀ (env : Env) (doc : DocumentRec) (u : UserRec) (action : String),
      doc.access_scope = "personal" →
      (check_document_access env doc u action = true ↔
        (is_super_admin u = true ∨ doc.uploaded_by_id = u.id))) ∧
    (∀ (env : Env) (doc : DocumentRec) (u : UserRec) (action : String),
      doc.access_scope = "personal" → get_user_role u = .admin →
      doc.uploaded_by_id ≠ u.id →
      check_document_access env doc u action = false) ∧
    (∀ (rbac : RbacContext) (pid uid : Option Int) (f : QdrantFilter)
        (ch : ChunkRec),
      rbac.is_super_admin = false → rbac.is_admin = true →
      buildSearchFilter [] rbac pid uid = .filt f →
      ch.access_scope = "personal" → evalFilter f ch = true →
      (uid ≠ none ∧ ch.user_id = uid) ∨
        (rbac.super_admin_user_id ≠ none ∧
          ch.user_id = rbac.super_admin_user_id)) := by
  refine ⟨?_, ?_, ?_⟩
  · intro env doc u action hscope
    rw [check_document_access_personal env doc u action hscope]
    simp [Bool.or_eq_true, beq_iff_eq]
  · intro env doc u action hscope hrole hown
    have hsa : is_super_admin u = false := by
      unfold is_super_admin
      rw [hrole]
      decide
    rw [check_document_access_personal env doc u action hscope, hsa]
    simp [beq_iff_eq, hown]
  · intro rbac pid uid f ch hsa hadm hbuild hscope heval
    unfold buildSearchFilter at hbuild
    rw [if_neg (by simp)] at hbuild
    rw [hsa] at hbuild
    simp only [Bool.false_eq_true, if_false, hadm, if_true] at hbuild
    injection hbuild with hf
    subst hf
    unfold evalFilter at heval
    simp only [Bool.and_eq_true, Bool.or_eq_true, List.any_eq_true] at heval
    rcases heval.2 with hempty | ⟨c, hc, hcv⟩
    · simp at hempty
    · simp only [List.mem_append, List.mem_cons, List.mem_singleton] at hc
      rcases hc with ((hc | hc) | hc) | hc
      · subst hc
        simp [evalCond, hscope] at hcv
      · simp only [List.not_mem_nil, or_false] at hc
        subst hc
        simp [evalCond, hscope] at hcv
      · cases huid : uid with
        | none => rw [huid] at hc; simp [optUserCond] at hc
        | some x =>
          rw [huid] at hc
          simp only [optUserCond, List.mem_singleton] at hc
          subst hc
          simp only [evalCond, beq_iff_eq] at hcv
          exact Or.inl ⟨by simp, by rw [hcv]⟩
      · cases hsaid : rbac.super_admin_user_id with
        | none => rw [hsaid] at hc; simp [optUserCond] at hc
        | some x =>
          rw [hsaid] at hc
          simp only [optUserCond, List.mem_singleton] at hc
          subst hc
          simp only [evalCond, beq_iff_eq] at hcv
          exact Or.inr ⟨by simp, by rw [hcv]⟩

/-- Witness for C1: an admin who did not upload a personal document is
denied view access, and the admin-tier filter admits a personal chunk it
matched only through the caller's own id or the shared super-admin id. -/
theorem personal_scope_access_witness :
    check_document_access ⟨[], []⟩ ⟨10, 2, 1, "personal"⟩ ⟨1, some "admin", []⟩ "view" = false ∧
    ((some 3 ≠ (none : Option Int) ∧
        (ChunkRec.mk 1 none (some 3) "personal").user_id = some 3) ∨
      ((some 9 : Option Int) ≠ none ∧
        (ChunkRec.mk 1 none (some 3) "personal").user_id = some 9)) :=
  ⟨personal_scope_access.2.1 ⟨[], []⟩ ⟨10, 2, 1, "personal"⟩ ⟨1, some "admin", []⟩
      "view" rfl (by decide) (by decide),
   personal_scope_access.2.2 ⟨false, true, [], some 9⟩ none (some 3)
      ⟨[], [Cond.scopeEq "organization", Cond.scopeEq "project",
            Cond.userIdEq 3, Cond.userIdEq 9]⟩
      ⟨1, none, some 3, "personal"⟩ rfl rfl (by decide) rfl (by decide)⟩

/-- C2: a non-empty explicit document-id allow-list compiles to the filter
consisting solely of `document_id ∈ allow-list`, that filter admits every
chunk whose document id lies in the list, and in particular a
personal-scope chunk of another uploader in an inaccessible project is
admitted via its explicit id. -/
theorem explicit_document_ids_bypass :
    (∀ (ids : List Int) (rbac : RbacContext) (pid uid : Option Int),
      ids ≠ [] →
      buildSearchFilter ids rbac pid uid =
        .filt { must := [Cond.docIdAny ids], should := [] }) ∧
    (∀ (ids : List Int) (ch : ChunkRec),
      ch.document_id ∈ ids →
      evalFilter { must := [Cond.docIdAny ids], should := [] } ch = true) ∧
    (evalFilter { must := [Cond.docIdAny [42]], should := [] }
        ⟨42, some 9, some 7, "personal"⟩ = true ∧
      (ChunkRec.mk 42 (some 9) (some 7) "personal").access_scope = "personal" ∧
      (ChunkRec.mk 42 (some 9) (some 7) "personal").user_id ≠ some 5 ∧
      (9 : Int) ∉ ([1, 2] : List Int) ∧
      buildSearchFilter [42] ⟨false, false, [1, 2], none⟩ (some 9) (some 5) =
        .filt { must := [Cond.docIdAny [42]], should := [] }) := by
  refine ⟨?_, ?_, by decide, by decide, by decide, by decide, by decide⟩
  · intro ids rbac pid uid h
    unfold buildSearchFilter
    rw [if_pos h]
  · intro ids ch h
    simpa [evalFilter, evalCond] using h

/-- Witness for C2: the allow-list `[42]` compiles to the pure
document-id filter, and it admits a chunk of document 42. -/
theorem explicit_document_ids_bypass_witness :
    buildSearchFilter [42] ⟨true, false, [3], some 8⟩ (some 1) (some 2) =
      .filt { must := [Cond.docIdAny [42]], should := [] } ∧
    evalFilter { must := [Cond.docIdAny [42]], should := [] }
      ⟨42, none, none, "organization"⟩ = true :=
  ⟨explicit_document_ids_bypass.1 [42] ⟨true, false, [3], some 8⟩ (some 1) (some 2)
      (by decide),
   explicit_document_ids_bypass.2.1 [42] ⟨42, none, none, "organization"⟩ (by decide)⟩

/-- C3: for a standard/guest caller, requesting a project outside the
accessible set compiles to the distinct access-denied outcome whose
response carries an `error` entry, and a response carries an `error` entry
exactly when the compiler denied access — so the denied outcome is
distinguishable from any successful search, including one with zero
matches. -/
theorem project_access_denied_distinct :
    (∀ (rbac : RbacContext) (p : Int) (uid : Option Int),
      rbac.is_super_admin = false → rbac.is_admin = false →
      rbac.accessible_project_ids.contains p = false →
      buildSearchFilter [] rbac (some p) uid = .denied) ∧
    (∀ (db : List ChunkRec) (rbac : RbacContext) (p : Int) (uid : Option Int),
      rbac.is_super_admin = false → rbac.is_admin = false →
      rbac.accessible_project_ids.contains p = false →
      search_similar_run db [] rbac (some p) uid =
        { results := [], total_results := 0,
          error := some "Access denied to this project", rbac_applied := false }) ∧
    (∀ (db : List ChunkRec) (ids : List Int) (rbac : RbacContext)
        (pid uid : Option Int),
      (search_similar_run db ids rbac pid uid).error ≠ none ↔
        buildSearchFilter ids rbac pid uid = .denied) := by
  have hden : ∀ (rbac : RbacContext) (p : Int) (uid : Option Int),
      rbac.is_super_admin = false → rbac.is_admin = false →
      rbac.accessible_project_ids.contains p = false →
      buildSearchFilter [] rbac (some p) uid = .denied := by
    intro rbac p uid h1 h2 h3
    unfold buildSearchFilter
    rw [if_neg (by simp), h1, h2]
    simp only [Bool.false_eq_true, if_false]
    rw [if_neg (by simpa using h3)]
  refine ⟨hden, ?_, ?_⟩
  · intro db rbac p uid h1 h2 h3
    unfold search_similar_run
    rw [hden rbac p uid h1 h2 h3]
  · intro db ids rbac pid uid
    unfold search_similar_run
    cases buildSearchFilter ids rbac pid uid <;> simp

/-- Witness for C3: a guest-tier context with accessible projects `[1, 2]`
requesting project 9 gets the access-denied response, whose `error` entry
distinguishes it from a zero-match success. -/
theorem project_access_denied_distinct_witness :
    search_similar_run [] [] ⟨false, false, [1, 2], none⟩ (some 9) (some 5) =
      { results := [], total_results := 0,
        error := some "Access denied to this project", rbac_applied := false } ∧
    ((search_similar_run [] [] ⟨false, false, [1, 2], none⟩ (some 9) (some 5)).error ≠ none ↔
      buildSearchFilter [] ⟨false, false, [1, 2], none⟩ (some 9) (some 5) = .denied) :=
  ⟨project_access_denied_distinct.2.1 [] ⟨false, false, [1, 2], none⟩ 9 (some 5)
      rfl rfl (by decide),
   project_access_denied_distinct.2.2 [] [] ⟨false, false, [1, 2], none⟩
      (some 9) (some 5)⟩

/-- A run of consecutive failing provider calls from a closed breaker:
once the counter reaches the threshold the breaker is open, and the last
failure time is the time of the last call. -/
lemma applyFailCalls_closed (threshold : Nat) (timeout : Int) :
    ∀ (ts : List Int) (c : Nat) (lf : Option Int), ts ≠ [] →
      c + ts.length = threshold →
      applyFailCalls threshold timeout ⟨c, lf, .closed⟩ ts =
        ⟨threshold, ts.getLast?, .open⟩ := by
  intro ts
  induction ts with
  | nil => intro c lf h; exact absurd rfl h
  | cons t rest ih =>
    intro c lf _ hlen
    cases rest with
    | nil =>
      have hc : c + 1 = threshold := by simpa using hlen
      simp [applyFailCalls, callStep, can_execute, record_failure, hc]
    | cons y rest2 =>
      have hlt : ¬ threshold ≤ c + 1 := by
        simp only [List.length_cons] at hlen
        omega
      have hstep :
          (callStep threshold timeout ⟨c, lf, .closed⟩ t false).1 =
            ⟨c + 1, some t, .closed⟩ := by
        simp [callStep, can_execute, record_failure, hlt]
      have hlast : (t :: y :: rest2).getLast? = (y :: rest2).getLast? :=
        List.getLast?_cons_cons
      calc applyFailCalls threshold timeout ⟨c, lf, .closed⟩ (t :: y :: rest2)
          = applyFailCalls threshold timeout ⟨c + 1, some t, .closed⟩ (y :: rest2) := by
            simp only [applyFailCalls, List.foldl_cons, hstep]
        _ = ⟨threshold, (y :: rest2).getLast?, .open⟩ := by
            apply ih
            · simp
            · simp only [List.length_cons] at hlen ⊢
              omega
        _ = ⟨threshold, (t :: y :: rest2).getLast?, .open⟩ := by rw [hlast]

/-- C4: the circuit-breaker protocol.  From a fresh breaker, `threshold`
consecutive recorded failures leave the breaker open with the last call's
time recorded; while open and within the cooldown every call is rejected
without contacting the provider; once the cooldown has elapsed the gate
advances the breaker to half-open and lets a single probe through; a
successful probe resets the counter to zero and closes the circuit; a
failing probe re-opens the circuit with a fresh cooldown clock; and after
the probe the breaker is never left half-open, so exactly one probe runs. -/
theorem circuit_breaker_protocol (threshold : Nat) (timeout : Int) :
    (∀ ts : List Int, ts ≠ [] → ts.length = threshold →
      applyFailCalls threshold timeout CB.init ts =
        ⟨threshold, ts.getLast?, .open⟩) ∧
    (∀ (cb : CB) (t tf : Int) (ok : Bool),
      cb.state = .open → cb.last_failure_time = some tf →
      ¬ timeout < t - tf →
      callStep threshold timeout cb t ok = (cb, .rejected)) ∧
    (∀ (cb : CB) (t tf : Int),
      cb.state = .open → cb.last_failure_time = some tf →
      timeout < t - tf →
      (can_execute timeout cb t).1 = true ∧
      (can_execute timeout cb t).2.state = .halfOpen) ∧
    (∀ (cb : CB) (t tf : Int),
      cb.state = .open → cb.last_failure_time = some tf →
      timeout < t - tf →
      callStep threshold timeout cb t true =
        (⟨0, cb.last_failure_time, .closed⟩, .succeeded)) ∧
    (∀ (cb : CB) (t tf : Int),
      cb.state = .open → cb.last_failure_time = some tf →
      timeout < t - tf → threshold ≤ cb.failure_count + 1 →
      callStep threshold timeout cb t false =
        (⟨cb.failure_count + 1, some t, .open⟩, .failedCall)) ∧
    (∀ (cb : CB) (t tf : Int) (ok : Bool),
      cb.state = .open → cb.last_failure_time = some tf →
      timeout < t - tf → threshold ≤ cb.failure_count + 1 →
      (callStep threshold timeout cb t ok).1.state ≠ .halfOpen) := by
  refine ⟨?_, ?_, ?_, ?_, ?_, ?_⟩
  · intro ts hne hlen
    exact applyFailCalls_closed threshold timeout ts 0 none hne (by simpa using hlen)
  · intro cb t tf ok hs hl hnel
    simp [callStep, can_execute, hs, hl, hnel]
  · intro cb t tf hs hl hel
    constructor <;> simp [can_execute, hs, hl, hel]
  · intro cb t tf hs hl hel
    simp [callStep, can_execute, record_success, hs, hl, hel]
  · intro cb t tf hs hl hel hth
    simp [callStep, can_execute, record_failure, hs, hl, hel, hth]
  · intro cb t tf ok hs hl hel hth
    cases ok <;>
      simp [callStep, can_execute, record_success, record_failure, hs, hl, hel, hth]

/-- Witness for C4 with threshold 2 and cooldown 60: two failures open the
breaker at time 1; a call at time 30 is rejected; a successful probe at
time 100 closes the breaker and zeroes the counter; a failing probe at
time 100 re-opens it with the clock restarted. -/
theorem circuit_breaker_protocol_witness :
    applyFailCalls 2 60 CB.init [0, 1] = ⟨2, some 1, .open⟩ ∧
    callStep 2 60 ⟨2, some 1, .open⟩ 30 true = (⟨2, some 1, .open⟩, .rejected) ∧
    callStep 2 60 ⟨2, some 1, .open⟩ 100 true =
      (⟨0, some 1, .closed⟩, .succeeded) ∧
    callStep 2 60 ⟨2, some 1, .open⟩ 100 false =
      (⟨3, some 100, .open⟩, .failedCall) :=
  ⟨by
    have h := (circuit_breaker_protocol 2 60).1 [0, 1] (by simp) (by simp)
    simpa using h,
   (circuit_breaker_protocol 2 60).2.1 ⟨2, some 1, .open⟩ 30 1 true rfl rfl
      (by decide),
   (circuit_breaker_protocol 2 60).2.2.2.1 ⟨2, some 1, .open⟩ 100 1 rfl rfl
      (by decide),
   (circuit_breaker_protocol 2 60).2.2.2.2.1 ⟨2, some 1, .open⟩ 100 1 rfl rfl
      (by decide) (by decide)⟩

/-- C8: the rate limiter.  When the pruned one-minute window already holds
the configured maximum, the call is rejected with a wait time of at most
60 seconds and no new timestamp is recorded (every surviving timestamp was
already present); otherwise the call is admitted and records exactly the
one new timestamp. -/
theorem rate_limiter_spec (K : Nat) (ts : List ℚ) (now : ℚ) :
    (1 ≤ K → (∀ t ∈ ts, t ≤ now) →
      K ≤ (ts.filter (fun t => now - 60 < t)).length →
      ∃ w, check_rate_limit K ts now =
          { timestamps := ts.filter (fun t => now - 60 < t),
            rejected := some w } ∧
        w ≤ 60) ∧
    ((ts.filter (fun t => now - 60 < t)).length < K →
      check_rate_limit K ts now =
        { timestamps := ts.filter (fun t => now - 60 < t) ++ [now],
          rejected := none }) ∧
    (∀ x ∈ (check_rate_limit K ts now).timestamps, x ∈ ts ∨ x = now) := by
  refine ⟨?_, ?_, ?_⟩
  · intro hK hle hlen
    refine ⟨(ts.filter (fun t => now - 60 < t)).headD 0 - (now - 60), ?_, ?_⟩
    · unfold check_rate_limit
      rw [if_pos hlen]
    · cases hk : ts.filter (fun t => now - 60 < t) with
      | nil =>
        rw [hk] at hlen
        simp at hlen
        omega
      | cons h rest =>
        have hmem : h ∈ ts.filter (fun t => now - 60 < t) := by
          rw [hk]; exact List.mem_cons_self h rest
        have hts : h ≤ now := hle h (List.mem_of_mem_filter hmem)
        simp only [List.headD_cons]
        linarith
  · intro hlen
    unfold check_rate_limit
    rw [if_neg (by omega)]
  · intro x hx
    unfold check_rate_limit at hx
    by_cases hc : K ≤ (ts.filter (fun t => now - 60 < t)).length
    · rw [if_pos hc] at hx
      exact Or.inl (List.mem_of_mem_filter hx)
    · rw [if_neg hc] at hx
      rcases List.mem_append.mp hx with hx1 | hx2
      · exact Or.inl (List.mem_of_mem_filter hx1)
      · exact Or.inr (by simpa using hx2)

/-- Witness for C8 with a one-per-minute limit: with timestamp 10 in the
window, a call at time 30 is rejected with wait 40 ≤ 60 and the window is
unchanged; with a two-per-minute limit the same call is admitted and
records time 30. -/
theorem rate_limiter_spec_witness :
    (∃ w, check_rate_limit 1 [10] 30 =
        { timestamps := [(10 : ℚ)].filter (fun t => (30 : ℚ) - 60 < t),
          rejected := some w } ∧
      w ≤ 60) ∧
    check_rate_limit 2 [10] 30 =
      { timestamps := [(10 : ℚ)].filter (fun t => (30 : ℚ) - 60 < t) ++ [30],
        rejected := none } :=
  ⟨(rate_limiter_spec 1 [10] 30).1 (by norm_num)
      (by intro t ht; simp at ht; simp [ht]; norm_num)
      (by norm_num [List.filter]),
   (rate_limiter_spec 2 [10] 30).2.1 (by norm_num [List.filter])⟩

/-- On a non-empty context list, the confidence is the clamped sum of the
mean similarity and the high-relevance bonus. -/
lemma calculate_confidence_nonempty (docs : List RetrievedDoc) (h : docs ≠ []) :
    calculate_confidence docs =
      min (avgScore docs + min ((highRelevanceCount docs : ℚ) * (1/20)) (3/20)) 1 := by
  have h1 : docs.isEmpty = false := by simp [List.isEmpty_iff, h]
  have h2 : (scoresOf docs).isEmpty = false := by
    simp [scoresOf, List.isEmpty_iff, h]
  simp only [calculate_confidence, h1, h2, Bool.false_eq_true, if_false]
  rfl

/-- C5: the confidence score is 0.5 on an empty context list, never
exceeds 1, is non-negative whenever every similarity score is
non-negative (as retrieval's minimum-score threshold guarantees), and is
monotone non-decreasing in the count of chunks scoring above the 0.7
high-relevance threshold when the mean similarity is held fixed. -/
theorem confidence_spec :
    (calculate_confidence [] = 1/2) ∧
    (∀ docs : List RetrievedDoc, calculate_confidence docs ≤ 1) ∧
    (∀ docs : List RetrievedDoc, (∀ d ∈ docs, 0 ≤ d.similarity_score) →
      0 ≤ calculate_confidence docs) ∧
    (∀ d1 d2 : List RetrievedDoc, d1 ≠ [] → d2 ≠ [] →
      avgScore d1 = avgScore d2 →
      highRelevanceCount d1 ≤ highRelevanceCount d2 →
      calculate_confidence d1 ≤ calculate_confidence d2) := by
  refine ⟨rfl, ?_, ?_, ?_⟩
  · intro docs
    by_cases h : docs = []
    · subst h
      norm_num [calculate_confidence]
    · rw [calculate_confidence_nonempty docs h]
      exact min_le_right _ _
  · intro docs hpos
    by_cases h : docs = []
    · subst h
      norm_num [calculate_confidence]
    · rw [calculate_confidence_nonempty docs h]
      refine le_min (add_nonneg ?_ ?_) (by norm_num)
      · refine div_nonneg (List.sum_nonneg ?_) (by positivity)
        intro x hx
        simp only [scoresOf, List.mem_map] at hx
        obtain ⟨d, hd, rfl⟩ := hx
        exact hpos d hd
      · exact le_min (mul_nonneg (Nat.cast_nonneg _) (by norm_num)) (by norm_num)
  · intro d1 d2 h1 h2 havg hcnt
    rw [calculate_confidence_nonempty d1 h1, calculate_confidence_nonempty d2 h2]
    refine min_le_min (add_le_add (le_of_eq havg) ?_) le_rfl
    exact min_le_min
      (mul_le_mul_of_nonneg_right (by exact_mod_cast hcnt) (by norm_num)) le_rfl

/-- Witness for C5: a single chunk scoring 0.9 yields a confidence in
[0, 1], and adding a chunk above the 0.7 threshold while keeping the mean
fixed does not lower the confidence. -/
theorem confidence_spec_witness :
    (0 : ℚ) ≤
      calculate_confidence [⟨"A", some 1, some "a.pdf", none, none, none, 9/10⟩] ∧
    calculate_confidence [⟨"A", some 1, some "a.pdf", none, none, none, 9/10⟩] ≤ 1 ∧
    calculate_confidence [⟨"A", some 1, some "a.pdf", none, none, none, 1/2⟩] ≤
      calculate_confidence [⟨"B", some 2, some "b.pdf", none, none, none, 3/4⟩,
        ⟨"C", some 3, some "c.pdf", none, none, none, 1/4⟩] :=
  ⟨confidence_spec.2.2.1 [⟨"A", some 1, some "a.pdf", none, none, none, 9/10⟩]
      (by intro d hd; simp at hd; rw [hd]; norm_num),
   confidence_spec.2.1 [⟨"A", some 1, some "a.pdf", none, none, none, 9/10⟩],
   confidence_spec.2.2.2 _ _ (by simp) (by simp)
      (by norm_num [avgScore, scoresOf])
      (by norm_num [highRelevanceCount, scoresOf, List.filter])⟩

/-- C6: the citations of a generated answer are exactly the retrieved
chunks whose similarity score meets the minimum-similarity threshold; in
particular two chunks scoring 0.9 and 0.4 against threshold 0.5 yield
exactly the 0.9-scoring citation. -/
theorem citations_min_similarity :
    (∀ (minSim : ℚ) (docs : List RetrievedDoc),
      extract_citations minSim docs =
        (docs.filter (fun d => decide (minSim ≤ d.similarity_score))).map citationOf) ∧
    (extract_citations (1/2)
        [⟨"chunk A", some 1, some "a.pdf", some 2, none, some 0, 9/10⟩,
         ⟨"chunk B", some 2, some "b.pdf", none, none, some 1, 4/10⟩] =
      [citationOf ⟨"chunk A", some 1, some "a.pdf", some 2, none, some 0, 9/10⟩]) := by
  constructor
  · intro minSim docs
    induction docs with
    | nil => rfl
    | cons d rest ih =>
      by_cases h : minSim ≤ d.similarity_score
      · simp [extract_citations, h, ih]
      · simp [extract_citations, h, ih]
  · norm_num [extract_citations]

/-- A list starts with itself followed by anything. -/
lemma startsWithL_append (p s : List Char) : startsWithL (p ++ s) p = true := by
  induction p with
  | nil => cases s <;> rfl
  | cons a as ih => simp [startsWithL, ih]

/-- A contiguous occurrence witnessed by a decomposition is found by
`containsL`. -/
lemma containsL_decomp (u x v : List Char) : containsL (u ++ x ++ v) x = true := by
  induction u with
  | nil =>
    show containsL (x ++ v) x = true
    unfold containsL
    rw [startsWithL_append]
    simp
  | cons a u2 ih =>
    unfold containsL
    simp only [List.cons_append]
    have ih2 : containsL (u2 ++ (x ++ v)) x = true := by
      rw [← List.append_assoc]
      exact ih
    simp [ih2]

/-- Substring occurrence from a character-level decomposition. -/
lemma strContains_of_data (s x : String) (u v : List Char)
    (h : s.data = u ++ x.data ++ v) : strContains s x = true := by
  unfold strContains
  rw [h]
  exact containsL_decomp u x.data v

/-- Every member of a joined list occurs in the join, witnessed by a
character-level decomposition. -/
lemma joinSep_data_decomp (sep : String) (l : List String) (x : String)
    (h : x ∈ l) : ∃ u v : List Char, (joinSep sep l).data = u ++ x.data ++ v := by
  induction l with
  | nil => cases h
  | cons y rest ih =>
    cases rest with
    | nil =>
      rw [List.mem_singleton] at h
      subst h
      exact ⟨[], [], by simp [joinSep]⟩
    | cons z rest2 =>
      rcases List.mem_cons.mp h with hxy | h2
      · subst hxy
        refine ⟨[], sep.data ++ (joinSep sep (z :: rest2)).data, ?_⟩
        simp [joinSep, String.data_append, List.append_assoc]
      · obtain ⟨u, v, huv⟩ := ih h2
        refine ⟨y.data ++ sep.data ++ u, v, ?_⟩
        simp [joinSep, String.data_append, huv, List.append_assoc]

/-- A chunk with non-empty stripped content yields exactly its source tag
followed by its truncated stripped content. -/
lemma fallbackEntry_some (d : RetrievedDoc) (h : strStrip d.content ≠ "") :
    fallbackEntry d = some (fallbackSource d ++ ":\n" ++ fallbackContentOf d) := by
  simp only [fallbackEntry, fallbackContentOf]
  rw [if_neg h]

/-- A chunk with empty stripped content contributes no excerpt. -/
lemma fallbackEntry_none (d : RetrievedDoc) (h : strStrip d.content = "") :
    fallbackEntry d = none := by
  simp only [fallbackEntry]
  rw [if_pos h]

/-- When some of the first three chunks contribute excerpts, the fallback
answer is the banner, the joined excerpts, and the closing line. -/
lemma generate_context_fallback_eq_banner (docs : List RetrievedDoc)
    (hne : docs ≠ [])
    (hrel : (docs.take 3).filterMap fallbackEntry ≠ []) :
    generate_context_fallback docs =
      degradedBanner
        ++ joinSep "\n\n---\n\n" ((docs.take 3).filterMap fallbackEntry)
        ++ degradedTail := by
  unfold generate_context_fallback
  have h1 : docs.isEmpty = false := by simp [List.isEmpty_iff, hne]
  rw [h1]
  simp only [Bool.false_eq_true, if_false]
  have h2 : ((docs.take 3).filterMap fallbackEntry).isEmpty = false := by
    simp [List.isEmpty_iff, hrel]
  rw [h2]
  simp

/-- When none of the first three chunks has readable content, the
fallback answer is the fixed could-not-extract message. -/
lemma generate_context_fallback_eq_unreadable (docs : List RetrievedDoc)
    (hne : docs ≠ [])
    (hall : ∀ d ∈ docs.take 3, strStrip d.content = "") :
    generate_context_fallback docs =
      "I found some documents but couldn't extract readable content. Please try rephrasing your question." := by
  unfold generate_context_fallback
  have h1 : docs.isEmpty = false := by simp [List.isEmpty_iff, hne]
  rw [h1]
  simp only [Bool.false_eq_true, if_false]
  have h2 : (docs.take 3).filterMap fallbackEntry = [] := by
    rw [List.filterMap_eq_nil_iff]
    intro d hd
    exact fallbackEntry_none d (hall d hd)
  rw [h2]
  simp

/-- C7 counterexample: with four retrieved chunks, all with non-empty
content, the degraded fallback keeps only the top three, so the fourth
chunk's text (`"delta99"`) is absent from the answer although the claim
promises the retrieved chunks' text. -/
theorem degraded_fallback_counterexample :
    (let cdocs : List RetrievedDoc :=
      [⟨"alpha", none, some "f1.txt", none, none, none, 0⟩,
       ⟨"beta", none, some "f2.txt", none, none, none, 0⟩,
       ⟨"gamma", none, some "f3.txt", none, none, none, 0⟩,
       ⟨"delta99", none, some "f4.txt", none, none, none, 0⟩]
     (∀ d ∈ cdocs, d.content ≠ "") ∧
     strContains (generate_answer_on_hf_error (1/2) "m" "err" cdocs).answer
       "delta99" = false) := by
  constructor
  · intro d hd
    simp only [List.mem_cons, List.not_mem_nil, or_false] at hd
    rcases hd with rfl | rfl | rfl | rfl <;> decide
  · show strContains (generate_context_fallback _) _ = false
    decide

/-- C7 (amended): whenever the provider is unreachable
(inference-unavailable error) and at least one retrieved chunk has
non-empty content, `generate_answer` returns a degraded answer flagged as
non-generated (fallback model tag plus `error` entry) with confidence
0.5; if any of the first three chunks has non-empty stripped content, the
answer carries the service-degraded banner and, for every such chunk, its
source header followed by its stripped content truncated to 500
characters; if none of the first three chunks has readable content, the
answer is the fixed could-not-extract message; and with no context at all
the fixed apologetic message with no citations is returned. -/
theorem degraded_fallback_contract (minSim : ℚ) (model errMsg : String)
    (docs : List RetrievedDoc)
    (hany : docs.any (fun d => d.content ≠ "") = true) :
    (generate_answer_on_hf_error minSim model errMsg docs).confidence_score = 1/2 ∧
    (generate_answer_on_hf_error minSim model errMsg docs).model_used =
      "fallback (HF API unavailable)" ∧
    (generate_answer_on_hf_error minSim model errMsg docs).error ≠ none ∧
    ((∃ d ∈ docs.take 3, strStrip d.content ≠ "") →
      strContains (generate_answer_on_hf_error minSim model errMsg docs).answer
        degradedBanner = true ∧
      (∀ d ∈ docs.take 3, strStrip d.content ≠ "" →
        strContains (generate_answer_on_hf_error minSim model errMsg docs).answer
          (fallbackSource d ++ ":\n" ++ fallbackContentOf d) = true)) ∧
    ((∀ d ∈ docs.take 3, strStrip d.content = "") →
      (generate_answer_on_hf_error minSim model errMsg docs).answer =
        "I found some documents but couldn't extract readable content. Please try rephrasing your question.") ∧
    generate_answer_on_hf_error minSim model errMsg [] =
      { answer := "The AI service is temporarily unavailable due to network issues. Please try again when your internet connection is restored.",
        citations := [], confidence_score := 0, model_used := model,
        error := some errMsg } := by
  have hne : docs ≠ [] := by
    intro h
    subst h
    simp at hany
  have hanswer :
      (generate_answer_on_hf_error minSim model errMsg docs).answer =
        generate_context_fallback docs := by
    unfold generate_answer_on_hf_error
    rw [if_pos hany]
  refine ⟨?_, ?_, ?_, ?_, ?_, ?_⟩
  · unfold generate_answer_on_hf_error
    rw [if_pos hany]
  · unfold generate_answer_on_hf_error
    rw [if_pos hany]
  · unfold generate_answer_on_hf_error
    rw [if_pos hany]
    simp
  · rintro ⟨d0, hd0, hne0⟩
    have hrel : (docs.take 3).filterMap fallbackEntry ≠ [] := by
      intro hnil
      have h0 := List.filterMap_eq_nil_iff.mp hnil d0 hd0
      rw [fallbackEntry_some d0 hne0] at h0
      exact Option.noConfusion h0
    have hshape := generate_context_fallback_eq_banner docs hne hrel
    constructor
    · refine strContains_of_data _ _ []
        ((joinSep "\n\n---\n\n" ((docs.take 3).filterMap fallbackEntry)).data
          ++ degradedTail.data) ?_
      rw [hanswer, hshape]
      simp [String.data_append, List.append_assoc]
    · intro d hd hdne
      have hmem : (fallbackSource d ++ ":\n" ++ fallbackContentOf d) ∈
          (docs.take 3).filterMap fallbackEntry :=
        List.mem_filterMap.mpr ⟨d, hd, fallbackEntry_some d hdne⟩
      obtain ⟨u, v, huv⟩ :=
        joinSep_data_decomp "\n\n---\n\n"
          ((docs.take 3).filterMap fallbackEntry) _ hmem
      refine strContains_of_data _ _ (degradedBanner.data ++ u)
        (v ++ degradedTail.data) ?_
      rw [hanswer, hshape]
      simp [String.data_append, huv, List.append_assoc]
  · intro hall
    rw [hanswer]
    exact generate_context_fallback_eq_unreadable docs hne hall
  · rfl

/-- Witness for C7 (amended): two chunks scoring 0.9 and 0.4 with the
provider down — the degraded answer has confidence 0.5 and contains the
banner and the first chunk's excerpt. -/
theorem degraded_fallback_contract_witness :
    (generate_answer_on_hf_error (1/2) "mistral" "down"
        [⟨"First chunk text", some 1, some "a.pdf", some 2, none, none, 9/10⟩,
         ⟨"Second chunk text", some 2, some "b.pdf", none, none, none, 2/5⟩]).confidence_score = 1/2 ∧
    strContains (generate_answer_on_hf_error (1/2) "mistral" "down"
        [⟨"First chunk text", some 1, some "a.pdf", some 2, none, none, 9/10⟩,
         ⟨"Second chunk text", some 2, some "b.pdf", none, none, none, 2/5⟩]).answer
      degradedBanner = true ∧
    strContains (generate_answer_on_hf_error (1/2) "mistral" "down"
        [⟨"First chunk text", some 1, some "a.pdf", some 2, none, none, 9/10⟩,
         ⟨"Second chunk text", some 2, some "b.pdf", none, none, none, 2/5⟩]).answer
      (fallbackSource ⟨"First chunk text", some 1, some "a.pdf", some 2, none, none, 9/10⟩
        ++ ":\n"
        ++ fallbackContentOf ⟨"First chunk text", some 1, some "a.pdf", some 2, none, none, 9/10⟩) = true := by
  have h := degraded_fallback_contract (1/2) "mistral" "down"
    [⟨"First chunk text", some 1, some "a.pdf", some 2, none, none, 9/10⟩,
     ⟨"Second chunk text", some 2, some "b.pdf", none, none, none, 2/5⟩]
    (by decide)
  have h4 := h.2.2.2.1
    ⟨⟨"First chunk text", some 1, some "a.pdf", some 2, none, none, 9/10⟩,
      by simp, by decide⟩
  exact ⟨h.1, h4.1,
    h4.2 ⟨"First chunk text", some 1, some "a.pdf", some 2, none, none, 9/10⟩
      (by simp) (by decide)⟩

end KnowledgeAssistant
